import Mathlib

/-!
Shallow embedding of the Marketplace Order Synchronization & Status-Reconciliation
Engine of `app/services.py` (together with the enums of `app/enums.py`), and proofs
of the specification claims about it.

Conventions of the embedding:
* `datetime` values are modelled as `Int` microseconds since an arbitrary epoch
  (Python datetimes have microsecond precision; the code's 1-second tolerance
  `abs(delta.total_seconds()) < 1` becomes `(a - b).natAbs < 1000000`).
* Python truthiness of `str | None` fields (`if snapshot.wb_rid:`) is modelled by
  `pyTruthyStr`: `None` and the empty string are falsy.
* The SQLAlchemy store is modelled as a `List Order`; a freshly created order is
  prepended, so `List.find?` (first match) models the source's
  `order_by(Order.id.desc())` lookup (the newest row wins).
* Adapter network calls are modelled by their outcome: `Except Unit (List _)`,
  `.error` standing for a raised exception caught at the orchestrator boundary.
-/

namespace Otgruzka

/-- Embeds `Marketplace` from `app/enums.py`. -/
inductive Marketplace where
  | wb
  | ozon
deriving DecidableEq, Repr, Fintype

/-- Embeds `OrderStatus` from `app/enums.py`. -/
inductive OrderStatus where
  | new
  | assembly
  | transferred_to_delivery
  | accepted_at_warehouse
  | in_transit_to_buyer
  | arrived_at_buyer_pickup
  | buyout
  | return_started
  | rejection
  | defect
  | return_in_transit_from_buyer
  | return_arrived_to_seller_pickup
  | seller_picked_up
deriving DecidableEq, Repr, Fintype

/-- Embeds `FINAL_STATUSES` from `app/enums.py`. -/
def FINAL_STATUSES : List OrderStatus :=
  [.buyout, .rejection, .defect, .seller_picked_up]

/-- Embeds `WB_FORWARD_FUNNEL` from `app/services.py` (lines 120-128). -/
def WB_FORWARD_FUNNEL : List OrderStatus :=
  [.new, .assembly, .transferred_to_delivery, .accepted_at_warehouse,
   .in_transit_to_buyer, .arrived_at_buyer_pickup, .buyout]

/-- Embeds `WB_FORWARD_FUNNEL_INDEX` from `app/services.py` (line 129): the rank of a
status in the forward funnel, `none` for statuses outside the funnel
(`dict.get` returning `None`). -/
def WB_FORWARD_FUNNEL_INDEX (st : OrderStatus) : Option Nat :=
  WB_FORWARD_FUNNEL.findIdx? (fun x => x == st)

/-- Python truthiness of a `str | None` value: `None` and `""` are falsy. -/
def pyTruthyStr : Option String → Bool
  | none => false
  | some s => s ≠ ""

/-- One microsecond-denominated second, the tolerance of duplicate suppression. -/
def oneSecondMicros : Nat := 1000000

/-- Embeds `ExternalOrderSnapshot` from `app/services.py` (lines 100-111). -/
structure ExternalOrderSnapshot where
  marketplace : Marketplace
  assembly_task_number : String
  status : OrderStatus
  status_at : Int
  product_name : String
  sku : Option String
  quantity : Int
  due_ship_at : Option Int
  source_status : String
  wb_rid : Option String
deriving DecidableEq, Repr

/-- Embeds `OrderEvent` from `app/models.py`, the fields the engine reads and writes. -/
structure OrderEvent where
  status : OrderStatus
  event_at : Int
  note : String
deriving DecidableEq, Repr

/-- Embeds `Order` from `app/models.py` (plus the `wb_rid` column used by
`app/services.py`), the fields the engine reads and writes.  `events` keeps
insertion order, which is how the SQLAlchemy relationship collection behaves
within one unit of work. -/
structure Order where
  marketplace : Marketplace
  external_order_id : String
  wb_rid : Option String
  product_name : String
  sku : Option String
  quantity : Int
  due_ship_at : Option Int
  current_status : OrderStatus
  current_status_at : Int
  comment : String
  updated_at : Int
  events : List OrderEvent
deriving DecidableEq, Repr

/-- Embeds `_prevent_wb_status_rollback` from `app/services.py` (lines 266-283). -/
def _prevent_wb_status_rollback (current_status incoming_status : OrderStatus) : OrderStatus :=
  if incoming_status ∈ [OrderStatus.rejection, .return_started, .return_in_transit_from_buyer,
      .return_arrived_to_seller_pickup, .seller_picked_up, .defect] then
    incoming_status
  else
    match WB_FORWARD_FUNNEL_INDEX current_status, WB_FORWARD_FUNNEL_INDEX incoming_status with
    | some current_rank, some incoming_rank =>
        if incoming_rank < current_rank then current_status else incoming_status
    | _, _ => incoming_status

/-- The raw JSON-ish values a WB `supplyId` field can hold, as discriminated by
`_has_wb_supply_id` in `app/services.py` (lines 235-242): `None`, a string, a
number, or any other object with a Python truth value. -/
inductive WbSupplyIdValue where
  | pynone
  | pystr (s : String)
  | pynum (n : Int)
  | pyother (truthy : Bool)
deriving DecidableEq, Repr

/-- Embeds `_has_wb_supply_id` from `app/services.py` (lines 235-242). -/
def _has_wb_supply_id : WbSupplyIdValue → Bool
  | .pynone => false
  | .pystr s => s.trim ≠ ""
  | .pynum n => n > 0
  | .pyother t => t

/-- Embeds `_map_wb_status` from `app/services.py` (lines 245-256). -/
def _map_wb_status (raw_supply_id : WbSupplyIdValue) (supply_done : Bool) : OrderStatus :=
  if ¬ _has_wb_supply_id raw_supply_id then .new
  else if supply_done then .transferred_to_delivery
  else .assembly

/-- Embeds `_event_note` from `app/services.py` (lines 311-313). -/
def _event_note (source_status : String) : String :=
  if source_status.trim = "" then "Синхронизация API"
  else "Синхронизация API (" ++ source_status.trim ++ ")"

/-- Embeds `_is_duplicate_event` from `app/services.py` (lines 889-895). -/
def _is_duplicate_event (order : Order) (status : OrderStatus) (event_at : Int) : Bool :=
  order.events.any (fun e => e.status == status && (e.event_at - event_at).natAbs < oneSecondMicros)

/-- Embeds `_looks_like_srid` from `app/services.py` (lines 898-900). -/
def _looks_like_srid (value : String) : Bool :=
  value.data.any (fun c => c.isAlpha || c == '.')

/-- The `rid_to_task` dictionary of `_merge_wb_snapshots` (`app/services.py`
lines 802-806), as a lookup function: the dict comprehension iterates `active`
in order, keeps only snapshots with a truthy `wb_rid`, and a later entry for the
same key overwrites an earlier one, so the lookup returns the `getLast?`. -/
def _rid_to_task (active : List ExternalOrderSnapshot) (r : String) : Option String :=
  ((active.filter (fun a => pyTruthyStr a.wb_rid && a.wb_rid == some r)).getLast?).map
    (fun a => a.assembly_task_number)

/-- The per-statistics-snapshot re-keying step of `_merge_wb_snapshots`
(`app/services.py` lines 811-817): `dataclasses.replace` of
`assembly_task_number` when the truthy `wb_rid` is a key of `rid_to_task`. -/
def _merge_wb_rekey (active : List ExternalOrderSnapshot)
    (stat : ExternalOrderSnapshot) : ExternalOrderSnapshot :=
  if pyTruthyStr stat.wb_rid then
    match stat.wb_rid with
    | some r =>
      match _rid_to_task active r with
      | some task => { stat with assembly_task_number := task }
      | none => stat
    | none => stat
  else stat

/-- Embeds `_merge_wb_snapshots` from `app/services.py` (lines 797-823). -/
def _merge_wb_snapshots (active statistics : List ExternalOrderSnapshot) :
    List ExternalOrderSnapshot :=
  active ++ statistics.map (_merge_wb_rekey active)

/-- The `(marketplace, external id)` grouping key used by `_collapse_snapshots`. -/
def snapKey (s : ExternalOrderSnapshot) : Marketplace × String :=
  (s.marketplace, s.assembly_task_number)

/-- One iteration of the `_collapse_snapshots` loop (`app/services.py` lines
881-885) over the insertion-ordered dict, represented as a key-unique list:
 * key absent (`not current`): append at the end;
 * key present: replace the stored snapshot in place when
   `item.status_at >= current.status_at`, keep it otherwise.
Python dicts preserve the original position when a key is overwritten. -/
def dictInsert (acc : List ExternalOrderSnapshot) (item : ExternalOrderSnapshot) :
    List ExternalOrderSnapshot :=
  match acc with
  | [] => [item]
  | c :: rest =>
    if snapKey c = snapKey item then
      (if item.status_at ≥ c.status_at then item else c) :: rest
    else
      c :: dictInsert rest item

/-- Embeds `_collapse_snapshots` from `app/services.py` (lines 879-886):
`list(collapsed.values())` of the insertion-ordered dict built by the loop. -/
def _collapse_snapshots (items : List ExternalOrderSnapshot) : List ExternalOrderSnapshot :=
  items.foldl dictInsert []

/-- The `wb_rid` backfill of `_upsert_snapshot` (`app/services.py` lines
959-960): `if snapshot.wb_rid and not order.wb_rid`. -/
def backfillRid (o : Order) (s : ExternalOrderSnapshot) : Order :=
  if pyTruthyStr s.wb_rid && !(pyTruthyStr o.wb_rid) then { o with wb_rid := s.wb_rid } else o

/-- Embeds `next_status` of `_upsert_snapshot` (`app/services.py` lines 962-969):
rollback protection only for WB. -/
def nextStatusFor (o : Order) (s : ExternalOrderSnapshot) : OrderStatus :=
  if s.marketplace = Marketplace.wb then
    _prevent_wb_status_rollback o.current_status s.status
  else s.status

/-- The mutable-attribute refresh of `_upsert_snapshot` (`app/services.py` lines
977-981), including the Python `or` / `if snapshot.sku:` truthiness. -/
def refreshAttrs (o : Order) (s : ExternalOrderSnapshot) : Order :=
  { o with
    product_name := if s.product_name = "" then o.product_name else s.product_name,
    sku := if pyTruthyStr s.sku then s.sku else o.sku,
    quantity := max s.quantity 1,
    due_ship_at := match s.due_ship_at with | some d => some d | none => o.due_ship_at }

/-- The existing-order branch of `_upsert_snapshot` (`app/services.py` lines
959-996); returns the updated order and `event_created`.  The guard is the
source's `if not rollback_blocked and next_status != old_status` (for non-WB
marketplaces `next_status = snapshot.status`, so `rollback_blocked` is exactly
`nextStatusFor o s ≠ s.status`). -/
def updateExistingOrder (o : Order) (s : ExternalOrderSnapshot) (now : Int) : Order × Bool :=
  if nextStatusFor (backfillRid o s) s = s.status ∧
     ¬ nextStatusFor (backfillRid o s) s = (backfillRid o s).current_status then
    if _is_duplicate_event (refreshAttrs (backfillRid o s) s)
        (nextStatusFor (backfillRid o s) s) s.status_at then
      ({ refreshAttrs (backfillRid o s) s with
           current_status := nextStatusFor (backfillRid o s) s,
           current_status_at := s.status_at,
           updated_at := now }, false)
    else
      ({ refreshAttrs (backfillRid o s) s with
           events := (refreshAttrs (backfillRid o s) s).events ++
             [{ status := nextStatusFor (backfillRid o s) s,
                event_at := s.status_at,
                note := _event_note s.source_status }],
           current_status := nextStatusFor (backfillRid o s) s,
           current_status_at := s.status_at,
           updated_at := now }, true)
  else (backfillRid o s, false)

/-- The no-order branch of `_upsert_snapshot` (`app/services.py` lines 938-957). -/
def createOrderFromSnapshot (s : ExternalOrderSnapshot) (now : Int) : Order :=
  { marketplace := s.marketplace,
    external_order_id := s.assembly_task_number,
    wb_rid := s.wb_rid,
    product_name := s.product_name,
    sku := s.sku,
    quantity := max s.quantity 1,
    due_ship_at := s.due_ship_at,
    current_status := s.status,
    current_status_at := s.status_at,
    comment := "Синхронизация API WB/Ozon",
    updated_at := now,
    events := [{ status := s.status, event_at := s.status_at,
                 note := _event_note s.source_status }] }

/-- The primary lookup predicate of `_upsert_snapshot` (`app/services.py` lines
905-914): match on `(marketplace, external_order_id)`. -/
def keyPred (s : ExternalOrderSnapshot) (o : Order) : Bool :=
  o.marketplace == s.marketplace && o.external_order_id == s.assembly_task_number

/-- The fallback lookup predicate of `_upsert_snapshot` (`app/services.py` lines
918-927): match on `(marketplace, wb_rid)`. -/
def ridPred (s : ExternalOrderSnapshot) (o : Order) : Bool :=
  o.marketplace == s.marketplace && o.wb_rid == s.wb_rid

/-- Replace the first element of `l` satisfying `p` with `x`; models mutating
the SQLAlchemy-loaded row in place in the store. -/
def replaceFirst (l : List Order) (p : Order → Bool) (x : Order) : List Order :=
  match l with
  | [] => []
  | o :: rest => if p o then x :: rest else o :: replaceFirst rest p x

/-- Embeds `_upsert_snapshot` from `app/services.py` (lines 903-996) against the store:
returns the new store and the `(created, event_created)` pair.  A created order
is prepended, so the first `find?` match is the newest row, matching the
source's `order_by(Order.id.desc())`. -/
def _upsert_snapshot (store : List Order) (s : ExternalOrderSnapshot) (now : Int) :
    List Order × Bool × Bool :=
  match store.find? (keyPred s) with
  | some o =>
    (replaceFirst store (keyPred s) (updateExistingOrder o s now).1, false,
     (updateExistingOrder o s now).2)
  | none =>
    if pyTruthyStr s.wb_rid && _looks_like_srid s.assembly_task_number then
      match store.find? (ridPred s) with
      | some o =>
        (replaceFirst store (ridPred s) (updateExistingOrder o s now).1, false,
         (updateExistingOrder o s now).2)
      | none => (createOrderFromSnapshot s now :: store, true, true)
    else (createOrderFromSnapshot s now :: store, true, true)

/-- Embeds `SyncReport` as constructed in `app/services.py` (lines 999-1051). -/
structure SyncReport where
  wb_received : Nat
  ozon_received : Nat
  processed_orders : Nat
  created_orders : Nat
  updated_orders : Nat
  created_events : Nat
  message : String
deriving DecidableEq, Repr

/-- The reconciliation loop of `sync_orders_from_marketplaces` (`app/services.py`
lines 1031-1041): threads the store through `_upsert_snapshot` and accumulates
`(created_orders, updated_orders, created_events)`. -/
def syncLoop (store : List Order) (snaps : List ExternalOrderSnapshot) (now : Int) :
    List Order × Nat × Nat × Nat :=
  match snaps with
  | [] => (store, 0, 0, 0)
  | s :: rest =>
    let r := _upsert_snapshot store s now
    let t := syncLoop r.1 rest now
    (t.1,
     (if r.2.1 then 1 else 0) + t.2.1,
     (if r.2.1 then 0 else 1) + t.2.2.1,
     (if r.2.2 then 1 else 0) + t.2.2.2)

/-- Embeds `sync_orders_from_marketplaces` from `app/services.py` (lines 999-1051).
`lockHeld` is `SYNC_LOCK.locked()`; each adapter call is modelled by its
outcome (`.error` = the adapter raised and the `try/except` caught it, which
also covers the missing-credentials case as `.ok []`). -/
def sync_orders_from_marketplaces (lockHeld : Bool)
    (wbResult ozonResult : Except Unit (List ExternalOrderSnapshot))
    (store : List Order) (now : Int) : SyncReport × List Order :=
  if lockHeld then
    ({ wb_received := 0, ozon_received := 0, processed_orders := 0,
       created_orders := 0, updated_orders := 0, created_events := 0,
       message := "Синхронизация уже выполняется" }, store)
  else
    let wb := match wbResult with | .ok l => l | .error _ => []
    let oz := match ozonResult with | .ok l => l | .error _ => []
    let all := _collapse_snapshots (wb ++ oz)
    let t := syncLoop store all now
    ({ wb_received := wb.length, ozon_received := oz.length,
       processed_orders := all.length, created_orders := t.2.1,
       updated_orders := t.2.2.1, created_events := t.2.2.2,
       message := "Синхронизация завершена" }, t.1)

/-! ### Specification-side definitions

These definitions follow the wording of the specification and of the claims;
they are compared against the source-derived definitions above. -/

/-- The terminal status subset as listed by the specification: "buyout,
rejection, defect, seller_picked_up, return_arrived_to_seller_pickup". -/
def specTerminalStatuses : List OrderStatus :=
  [.buyout, .rejection, .defect, .seller_picked_up, .return_arrived_to_seller_pickup]

/-- All snapshots of `items` with grouping key `k`, in input order. -/
def groupOf (items : List ExternalOrderSnapshot) (k : Marketplace × String) :
    List ExternalOrderSnapshot :=
  items.filter (fun s => snapKey s == k)

/-- First snapshot with key `k` in a list (the dict entry of a key-unique list). -/
def findKey (l : List ExternalOrderSnapshot) (k : Marketplace × String) :
    Option ExternalOrderSnapshot :=
  l.find? (fun s => snapKey s == k)

/-- Latest-timestamp selection seeded at `c`: a later element displaces the
current champion when its timestamp is `≥` (so among maximal timestamps the
last one seen wins). -/
def pickFrom (c : ExternalOrderSnapshot) (l : List ExternalOrderSnapshot) :
    ExternalOrderSnapshot :=
  l.foldl (fun cur it => if it.status_at ≥ cur.status_at then it else cur) c

/-- The snapshot a group collapses to: the last element among those with the
maximal status timestamp. -/
def lastLatest (l : List ExternalOrderSnapshot) : Option ExternalOrderSnapshot :=
  match l with
  | [] => none
  | h :: t => some (pickFrom h t)

/-- First half of the specification's order invariant: every history event whose
timestamp is maximal in the history carries the order's current status. -/
def latestEventMatches (o : Order) : Prop :=
  ∀ e ∈ o.events, (∀ e2 ∈ o.events, e2.event_at ≤ e.event_at) → e.status = o.current_status

/-- Second half of the specification's order invariant: `current_status_at` is
`≥` the timestamp of every event in the history. -/
def statusAtDominates (o : Order) : Prop :=
  ∀ e ∈ o.events, e.event_at ≤ o.current_status_at

/-- The specification's order invariant (spec §3, Order). -/
def orderInvariant (o : Order) : Prop :=
  latestEventMatches o ∧ statusAtDominates o

instance (o : Order) : Decidable (latestEventMatches o) := by
  unfold latestEventMatches; infer_instance

instance (o : Order) : Decidable (statusAtDominates o) := by
  unfold statusAtDominates; infer_instance

instance (o : Order) : Decidable (orderInvariant o) := by
  unfold orderInvariant; infer_instance

/-- Whether `_upsert_snapshot` would find an existing order for `s` in `store`
(primary lookup, or the srid fallback lookup when it applies). -/
def orderMatched (store : List Order) (s : ExternalOrderSnapshot) : Bool :=
  (store.find? (keyPred s)).isSome ||
    (pyTruthyStr s.wb_rid && _looks_like_srid s.assembly_task_number &&
      (store.find? (ridPred s)).isSome)

/-- The number of snapshots that match an existing order at the moment they are
processed, threading the store exactly as the reconciliation loop does. -/
def matchedCountLoop (store : List Order) (snaps : List ExternalOrderSnapshot)
    (now : Int) : Nat :=
  match snaps with
  | [] => 0
  | s :: rest =>
    (if orderMatched store s then 1 else 0) +
      matchedCountLoop (_upsert_snapshot store s now).1 rest now

/-! ### Helper lemmas -/

@[simp] theorem backfillRid_marketplace (o : Order) (s : ExternalOrderSnapshot) :
    (backfillRid o s).marketplace = o.marketplace := by
  unfold backfillRid; split <;> rfl

@[simp] theorem backfillRid_external_order_id (o : Order) (s : ExternalOrderSnapshot) :
    (backfillRid o s).external_order_id = o.external_order_id := by
  unfold backfillRid; split <;> rfl

@[simp] theorem backfillRid_current_status (o : Order) (s : ExternalOrderSnapshot) :
    (backfillRid o s).current_status = o.current_status := by
  unfold backfillRid; split <;> rfl

@[simp] theorem backfillRid_current_status_at (o : Order) (s : ExternalOrderSnapshot) :
    (backfillRid o s).current_status_at = o.current_status_at := by
  unfold backfillRid; split <;> rfl

@[simp] theorem backfillRid_events (o : Order) (s : ExternalOrderSnapshot) :
    (backfillRid o s).events = o.events := by
  unfold backfillRid; split <;> rfl

@[simp] theorem refreshAttrs_marketplace (o : Order) (s : ExternalOrderSnapshot) :
    (refreshAttrs o s).marketplace = o.marketplace := rfl

@[simp] theorem refreshAttrs_external_order_id (o : Order) (s : ExternalOrderSnapshot) :
    (refreshAttrs o s).external_order_id = o.external_order_id := rfl

@[simp] theorem refreshAttrs_wb_rid (o : Order) (s : ExternalOrderSnapshot) :
    (refreshAttrs o s).wb_rid = o.wb_rid := rfl

@[simp] theorem refreshAttrs_current_status (o : Order) (s : ExternalOrderSnapshot) :
    (refreshAttrs o s).current_status = o.current_status := rfl

@[simp] theorem refreshAttrs_current_status_at (o : Order) (s : ExternalOrderSnapshot) :
    (refreshAttrs o s).current_status_at = o.current_status_at := rfl

@[simp] theorem refreshAttrs_events (o : Order) (s : ExternalOrderSnapshot) :
    (refreshAttrs o s).events = o.events := rfl

theorem updateExistingOrder_marketplace (o : Order) (s : ExternalOrderSnapshot) (now : Int) :
    ((updateExistingOrder o s now).1).marketplace = o.marketplace := by
  unfold updateExistingOrder; split_ifs <;> simp

theorem updateExistingOrder_external_order_id (o : Order) (s : ExternalOrderSnapshot)
    (now : Int) :
    ((updateExistingOrder o s now).1).external_order_id = o.external_order_id := by
  unfold updateExistingOrder; split_ifs <;> simp

theorem updateExistingOrder_wb_rid (o : Order) (s : ExternalOrderSnapshot) (now : Int) :
    ((updateExistingOrder o s now).1).wb_rid = (backfillRid o s).wb_rid := by
  unfold updateExistingOrder; split_ifs <;> simp

theorem backfillRid_of_eq_rid (o : Order) (s : ExternalOrderSnapshot)
    (h : o.wb_rid = s.wb_rid) : backfillRid o s = o := by
  unfold backfillRid
  split
  · next hc =>
    exfalso
    rw [h] at hc
    simp only [Bool.and_eq_true, Bool.not_eq_true'] at hc
    exact absurd hc.1 (by simp [hc.2])
  · rfl

theorem backfillRid_wb_rid_truthy (o : Order) (s : ExternalOrderSnapshot)
    (h : pyTruthyStr s.wb_rid = true) : pyTruthyStr (backfillRid o s).wb_rid = true := by
  unfold backfillRid
  split
  · exact h
  · next hc =>
    cases hob : pyTruthyStr o.wb_rid with
    | true => rfl
    | false => exact absurd (by simp [h, hob]) hc

theorem backfillRid_noop (o : Order) (s : ExternalOrderSnapshot)
    (h : ¬ (pyTruthyStr s.wb_rid && !pyTruthyStr o.wb_rid) = true) : backfillRid o s = o := by
  unfold backfillRid
  simp [h]

theorem backfillRid_idem (o : Order) (s : ExternalOrderSnapshot) :
    backfillRid (backfillRid o s) s = backfillRid o s := by
  apply backfillRid_noop
  by_cases hs : pyTruthyStr s.wb_rid = true
  · have h2 := backfillRid_wb_rid_truthy o s hs
    simp [h2]
  · simp only [Bool.not_eq_true] at hs
    simp [hs]

theorem prevent_self (st : OrderStatus) : _prevent_wb_status_rollback st st = st := by
  revert st; decide

theorem prevent_spec_terminal (cur st : OrderStatus) (h : st ∈ specTerminalStatuses) :
    _prevent_wb_status_rollback cur st = st := by
  revert cur st; decide

theorem replaceFirst_find_self (l : List Order) (p : Order → Bool) (x : Order)
    (h : l.find? p = some x) : replaceFirst l p x = l := by
  induction l with
  | nil => rfl
  | cons o rest ih =>
    by_cases hp : p o
    · rw [List.find?_cons_of_pos _ hp] at h
      have hx : x = o := (Option.some_inj.mp h).symm
      unfold replaceFirst
      rw [if_pos hp, hx]
    · rw [List.find?_cons_of_neg _ hp] at h
      unfold replaceFirst
      rw [if_neg hp, ih h]

theorem find?_replaceFirst_same (l : List Order) (p : Order → Bool) (x o : Order)
    (h : l.find? p = some o) (hx : p x = true) :
    (replaceFirst l p x).find? p = some x := by
  induction l with
  | nil => simp at h
  | cons a rest ih =>
    unfold replaceFirst
    by_cases hp : p a
    · rw [if_pos hp]
      exact List.find?_cons_of_pos _ hx
    · rw [List.find?_cons_of_neg _ hp] at h
      rw [if_neg hp, List.find?_cons_of_neg _ hp]
      exact ih h

theorem find?_replaceFirst_none (l : List Order) (p q : Order → Bool) (x : Order)
    (h : l.find? q = none) (hx : q x = false) :
    (replaceFirst l p x).find? q = none := by
  induction l with
  | nil => rfl
  | cons a rest ih =>
    rw [List.find?_eq_none] at h
    have ha : ¬ q a = true := h a (List.mem_cons_self a rest)
    have hrest : rest.find? q = none :=
      List.find?_eq_none.mpr (fun b hb => h b (List.mem_cons_of_mem a hb))
    unfold replaceFirst
    by_cases hp : p a
    · rw [if_pos hp, List.find?_cons_of_neg _ (by simp [hx])]
      exact hrest
    · rw [if_neg hp, List.find?_cons_of_neg _ ha]
      exact ih hrest

theorem nextStatusFor_congr (a b : Order) (s : ExternalOrderSnapshot)
    (h : a.current_status = b.current_status) : nextStatusFor a s = nextStatusFor b s := by
  unfold nextStatusFor; rw [h]

theorem nextStatusFor_of_current_eq (o : Order) (s : ExternalOrderSnapshot)
    (h : o.current_status = s.status) : nextStatusFor o s = s.status := by
  unfold nextStatusFor
  split
  · rw [h, prevent_self]
  · rfl

theorem backfillRid_after_update (o : Order) (s : ExternalOrderSnapshot) (now : Int) :
    backfillRid ((updateExistingOrder o s now).1) s = (updateExistingOrder o s now).1 := by
  apply backfillRid_noop
  by_cases hs : pyTruthyStr s.wb_rid = true
  · have ht : pyTruthyStr ((updateExistingOrder o s now).1).wb_rid = true := by
      rw [updateExistingOrder_wb_rid]
      exact backfillRid_wb_rid_truthy o s hs
    simp [ht]
  · simp only [Bool.not_eq_true] at hs
    simp [hs]

theorem updateExistingOrder_noop_of_current_eq (o : Order) (s : ExternalOrderSnapshot)
    (now : Int) (h : o.current_status = s.status) (hb : backfillRid o s = o) :
    updateExistingOrder o s now = (o, false) := by
  unfold updateExistingOrder
  rw [hb, if_neg]
  intro hc
  exact hc.2 (by rw [nextStatusFor_of_current_eq o s h, h])

theorem updateExistingOrder_noop_of_guard_false (o : Order) (s : ExternalOrderSnapshot)
    (now : Int)
    (hg : ¬ (nextStatusFor (backfillRid o s) s = s.status ∧
             ¬ nextStatusFor (backfillRid o s) s = (backfillRid o s).current_status)) :
    updateExistingOrder o s now = (backfillRid o s, false) := by
  unfold updateExistingOrder
  rw [if_neg hg]

theorem updateExistingOrder_idem (o : Order) (s : ExternalOrderSnapshot) (now now2 : Int) :
    updateExistingOrder ((updateExistingOrder o s now).1) s now2
      = ((updateExistingOrder o s now).1, false) := by
  by_cases hg : (nextStatusFor (backfillRid o s) s = s.status ∧
      ¬ nextStatusFor (backfillRid o s) s = (backfillRid o s).current_status)
  · have hcur : ((updateExistingOrder o s now).1).current_status = s.status := by
      unfold updateExistingOrder
      rw [if_pos hg]
      by_cases hd : _is_duplicate_event (refreshAttrs (backfillRid o s) s)
          (nextStatusFor (backfillRid o s) s) s.status_at = true
      · rw [if_pos hd]; exact hg.1
      · rw [if_neg hd]; exact hg.1
    exact updateExistingOrder_noop_of_current_eq _ s now2 hcur (backfillRid_after_update o s now)
  · have hU : (updateExistingOrder o s now).1 = backfillRid o s := by
      rw [updateExistingOrder_noop_of_guard_false o s now hg]
    rw [hU]
    have h2 := updateExistingOrder_noop_of_guard_false (backfillRid o s) s now2
      (by rw [backfillRid_idem]; exact hg)
    rw [h2, backfillRid_idem]

theorem updateExistingOrder_of_create (s : ExternalOrderSnapshot) (now now2 : Int) :
    updateExistingOrder (createOrderFromSnapshot s now) s now2
      = (createOrderFromSnapshot s now, false) := by
  apply updateExistingOrder_noop_of_current_eq
  · rfl
  · apply backfillRid_noop
    show ¬ (pyTruthyStr s.wb_rid && !pyTruthyStr s.wb_rid) = true
    simp

theorem keyPred_update (o : Order) (s : ExternalOrderSnapshot) (now : Int) :
    keyPred s ((updateExistingOrder o s now).1) = keyPred s o := by
  unfold keyPred
  rw [updateExistingOrder_marketplace, updateExistingOrder_external_order_id]

theorem keyPred_create (s : ExternalOrderSnapshot) (now : Int) :
    keyPred s (createOrderFromSnapshot s now) = true := by
  simp [keyPred, createOrderFromSnapshot]

theorem upsert_found_key (store : List Order) (s : ExternalOrderSnapshot) (now : Int)
    (o : Order) (h : store.find? (keyPred s) = some o) :
    _upsert_snapshot store s now =
      (replaceFirst store (keyPred s) (updateExistingOrder o s now).1, false,
       (updateExistingOrder o s now).2) := by
  unfold _upsert_snapshot
  rw [h]

theorem upsert_found_rid (store : List Order) (s : ExternalOrderSnapshot) (now : Int)
    (o : Order) (hk : store.find? (keyPred s) = none)
    (hg : (pyTruthyStr s.wb_rid && _looks_like_srid s.assembly_task_number) = true)
    (hr : store.find? (ridPred s) = some o) :
    _upsert_snapshot store s now =
      (replaceFirst store (ridPred s) (updateExistingOrder o s now).1, false,
       (updateExistingOrder o s now).2) := by
  unfold _upsert_snapshot
  rw [hk, hg, hr]
  simp

theorem upsert_created_none (store : List Order) (s : ExternalOrderSnapshot) (now : Int)
    (hk : store.find? (keyPred s) = none)
    (hg : (pyTruthyStr s.wb_rid && _looks_like_srid s.assembly_task_number) = true)
    (hr : store.find? (ridPred s) = none) :
    _upsert_snapshot store s now = (createOrderFromSnapshot s now :: store, true, true) := by
  unfold _upsert_snapshot
  rw [hk, hg, hr]
  simp

theorem upsert_created_noguard (store : List Order) (s : ExternalOrderSnapshot) (now : Int)
    (hk : store.find? (keyPred s) = none)
    (hg : (pyTruthyStr s.wb_rid && _looks_like_srid s.assembly_task_number) = false) :
    _upsert_snapshot store s now = (createOrderFromSnapshot s now :: store, true, true) := by
  unfold _upsert_snapshot
  rw [hk, hg]
  simp

theorem ridPred_update (o : Order) (s : ExternalOrderSnapshot) (now : Int)
    (h : ridPred s o = true) : ridPred s ((updateExistingOrder o s now).1) = true := by
  unfold ridPred at h ⊢
  simp only [Bool.and_eq_true, beq_iff_eq] at h ⊢
  obtain ⟨hm, hr⟩ := h
  refine ⟨?_, ?_⟩
  · rw [updateExistingOrder_marketplace]; exact hm
  · rw [updateExistingOrder_wb_rid, backfillRid_of_eq_rid o s hr]; exact hr

/-- C3 (confirmed): Upsert is idempotent on repeat observations: running
`_upsert_snapshot` a second time with an identical snapshot leaves the store
exactly as it was after the first call, reports the order as not created, and
creates no second history event — hence no attribute of the order (product
name, SKU, quantity, due-ship date, current status, current status timestamp)
drifts. -/
theorem upsert_snapshot_idempotent (store : List Order) (s : ExternalOrderSnapshot)
    (now now2 : Int) :
    _upsert_snapshot (_upsert_snapshot store s now).1 s now2
      = ((_upsert_snapshot store s now).1, false, false) := by
  cases hfind : store.find? (keyPred s) with
  | some o =>
    rw [upsert_found_key store s now o hfind]
    dsimp only
    have hpU : keyPred s (updateExistingOrder o s now).1 = true := by
      rw [keyPred_update]; exact List.find?_some hfind
    have hfind2 : (replaceFirst store (keyPred s) (updateExistingOrder o s now).1).find?
        (keyPred s) = some (updateExistingOrder o s now).1 :=
      find?_replaceFirst_same store (keyPred s) _ o hfind hpU
    rw [upsert_found_key _ s now2 _ hfind2, updateExistingOrder_idem,
        replaceFirst_find_self _ _ _ hfind2]
  | none =>
    cases hguard : (pyTruthyStr s.wb_rid && _looks_like_srid s.assembly_task_number) with
    | true =>
      cases hrid : store.find? (ridPred s) with
      | some o =>
        rw [upsert_found_rid store s now o hfind hguard hrid]
        dsimp only
        have hro : ridPred s o = true := List.find?_some hrid
        have hrU : ridPred s (updateExistingOrder o s now).1 = true :=
          ridPred_update o s now hro
        have hko : keyPred s o = false := by
          have hno := List.find?_eq_none.mp hfind o (List.mem_of_find?_eq_some hrid)
          cases hc : keyPred s o with
          | false => rfl
          | true => exact absurd hc hno
        have hkU : keyPred s (updateExistingOrder o s now).1 = false := by
          rw [keyPred_update]; exact hko
        have hfindk2 : (replaceFirst store (ridPred s) (updateExistingOrder o s now).1).find?
            (keyPred s) = none :=
          find?_replaceFirst_none store (ridPred s) (keyPred s) _ hfind hkU
        have hfindr2 : (replaceFirst store (ridPred s) (updateExistingOrder o s now).1).find?
            (ridPred s) = some (updateExistingOrder o s now).1 :=
          find?_replaceFirst_same store (ridPred s) _ o hrid hrU
        rw [upsert_found_rid _ s now2 _ hfindk2 hguard hfindr2, updateExistingOrder_idem,
            replaceFirst_find_self _ _ _ hfindr2]
      | none =>
        rw [upsert_created_none store s now hfind hguard hrid]
        dsimp only
        have hfind2 : (createOrderFromSnapshot s now :: store).find? (keyPred s)
            = some (createOrderFromSnapshot s now) :=
          List.find?_cons_of_pos _ (keyPred_create s now)
        rw [upsert_found_key _ s now2 _ hfind2, updateExistingOrder_of_create,
            replaceFirst_find_self _ _ _ hfind2]
    | false =>
      rw [upsert_created_noguard store s now hfind hguard]
      dsimp only
      have hfind2 : (createOrderFromSnapshot s now :: store).find? (keyPred s)
          = some (createOrderFromSnapshot s now) :=
        List.find?_cons_of_pos _ (keyPred_create s now)
      rw [upsert_found_key _ s now2 _ hfind2, updateExistingOrder_of_create,
          replaceFirst_find_self _ _ _ hfind2]

theorem funnel_isSome_not_rollback_terminal :
    ∀ st : OrderStatus, (WB_FORWARD_FUNNEL_INDEX st).isSome = true →
      st ∉ [OrderStatus.rejection, .return_started, .return_in_transit_from_buyer,
            .return_arrived_to_seller_pickup, .seller_picked_up, .defect] := by
  decide

theorem prevent_blocks (cur inc : OrderStatus) (k j : Nat)
    (hk : WB_FORWARD_FUNNEL_INDEX cur = some k)
    (hj : WB_FORWARD_FUNNEL_INDEX inc = some j)
    (hlt : j < k) :
    _prevent_wb_status_rollback cur inc = cur := by
  unfold _prevent_wb_status_rollback
  rw [if_neg (funnel_isSome_not_rollback_terminal inc (by rw [hj]; rfl))]
  split
  · next a b ha hb =>
    have hak : a = k := by rw [ha] at hk; exact Option.some_inj.mp hk
    have hbj : b = j := by rw [hb] at hj; exact Option.some_inj.mp hj
    rw [if_pos (by rw [hak, hbj]; exact hlt)]
  · next hnone =>
    exact absurd hk (by intro hc; exact hnone k j hc hj)

theorem updateExistingOrder_applied (o : Order) (s : ExternalOrderSnapshot) (now : Int)
    (hg : nextStatusFor (backfillRid o s) s = s.status ∧
          ¬ nextStatusFor (backfillRid o s) s = (backfillRid o s).current_status) :
    ((updateExistingOrder o s now).1).current_status = s.status ∧
    ((updateExistingOrder o s now).1).current_status_at = s.status_at := by
  unfold updateExistingOrder
  rw [if_pos hg]
  by_cases hd : _is_duplicate_event (refreshAttrs (backfillRid o s) s)
      (nextStatusFor (backfillRid o s) s) s.status_at = true
  · rw [if_pos hd]; exact ⟨hg.1, rfl⟩
  · rw [if_neg hd]; exact ⟨hg.1, rfl⟩

/-- C1 (confirmed): Rollback protection for WB: for an existing order whose
current status has funnel rank `k`, an incoming WB snapshot with a
spec-terminal status (buyout, rejection, defect, seller_picked_up,
return_arrived_to_seller_pickup) is always applied, while an incoming
non-terminal status with funnel rank `j < k` leaves the persisted current
status and current status timestamp unchanged. -/
theorem wb_rollback_protection (store : List Order) (o : Order)
    (s : ExternalOrderSnapshot) (now : Int) (k : Nat)
    (hfind : store.find? (keyPred s) = some o)
    (hwb : s.marketplace = Marketplace.wb)
    (hk : WB_FORWARD_FUNNEL_INDEX o.current_status = some k) :
    ((s.status ∉ specTerminalStatuses ∧
        ∃ j, WB_FORWARD_FUNNEL_INDEX s.status = some j ∧ j < k) →
      ∃ o2, ((_upsert_snapshot store s now).1).find? (keyPred s) = some o2 ∧
        o2.current_status = o.current_status ∧
        o2.current_status_at = o.current_status_at) ∧
    (s.status ∈ specTerminalStatuses →
      ∃ o2, ((_upsert_snapshot store s now).1).find? (keyPred s) = some o2 ∧
        o2.current_status = s.status) := by
  have hpU : keyPred s (updateExistingOrder o s now).1 = true := by
    rw [keyPred_update]; exact List.find?_some hfind
  have hfind2 : ((_upsert_snapshot store s now).1).find? (keyPred s)
      = some (updateExistingOrder o s now).1 := by
    rw [upsert_found_key store s now o hfind]
    exact find?_replaceFirst_same store (keyPred s) _ o hfind hpU
  constructor
  · rintro ⟨hnt, j, hj, hlt⟩
    have hne : o.current_status ≠ s.status := by
      intro he
      rw [he] at hk
      rw [hk] at hj
      exact absurd (Option.some_inj.mp hj).symm (Nat.ne_of_lt hlt)
    have hnext : nextStatusFor (backfillRid o s) s = o.current_status := by
      unfold nextStatusFor
      rw [if_pos hwb, backfillRid_current_status]
      exact prevent_blocks o.current_status s.status k j hk hj hlt
    have hgf : ¬ (nextStatusFor (backfillRid o s) s = s.status ∧
        ¬ nextStatusFor (backfillRid o s) s = (backfillRid o s).current_status) := by
      intro hg
      exact hne (by rw [← hnext]; exact hg.1)
    have hupd : updateExistingOrder o s now = (backfillRid o s, false) :=
      updateExistingOrder_noop_of_guard_false o s now hgf
    refine ⟨(updateExistingOrder o s now).1, hfind2, ?_, ?_⟩
    · rw [hupd]; exact backfillRid_current_status o s
    · rw [hupd]; exact backfillRid_current_status_at o s
  · intro hterm
    refine ⟨(updateExistingOrder o s now).1, hfind2, ?_⟩
    have hnext : nextStatusFor (backfillRid o s) s = s.status := by
      unfold nextStatusFor
      rw [if_pos hwb, backfillRid_current_status]
      exact prevent_spec_terminal o.current_status s.status hterm
    by_cases hcs : s.status = o.current_status
    · have hgf : ¬ (nextStatusFor (backfillRid o s) s = s.status ∧
          ¬ nextStatusFor (backfillRid o s) s = (backfillRid o s).current_status) := by
        intro hg
        exact hg.2 (by rw [hnext, hcs, backfillRid_current_status])
      rw [updateExistingOrder_noop_of_guard_false o s now hgf]
      show (backfillRid o s).current_status = s.status
      rw [backfillRid_current_status]
      exact hcs.symm
    · have hg : nextStatusFor (backfillRid o s) s = s.status ∧
          ¬ nextStatusFor (backfillRid o s) s = (backfillRid o s).current_status := by
        refine ⟨hnext, ?_⟩
        intro h2
        exact hcs (by rw [← hnext, h2, backfillRid_current_status])
      exact (updateExistingOrder_applied o s now hg).1

/-- Concrete WB order for the C1 witness: current status at funnel rank 2. -/
def c1Order : Order :=
  { marketplace := .wb, external_order_id := "100", wb_rid := some "R1",
    product_name := "Товар", sku := some "SKU-1", quantity := 1,
    due_ship_at := none, current_status := .transferred_to_delivery,
    current_status_at := 1000000, comment := "", updated_at := 0,
    events := [{ status := .transferred_to_delivery, event_at := 1000000, note := "" }] }

/-- Concrete WB snapshot for the C1 witness: non-terminal status at rank 1. -/
def c1Snap : ExternalOrderSnapshot :=
  { marketplace := .wb, assembly_task_number := "100", status := .assembly,
    status_at := 2000000, product_name := "Товар", sku := none, quantity := 1,
    due_ship_at := none, source_status := "", wb_rid := some "R1" }

/-- Witness for C1 at a concrete one-order store. -/
theorem wb_rollback_protection_witness :
    ((c1Snap.status ∉ specTerminalStatuses ∧
        ∃ j, WB_FORWARD_FUNNEL_INDEX c1Snap.status = some j ∧ j < 2) →
      ∃ o2, ((_upsert_snapshot [c1Order] c1Snap 0).1).find? (keyPred c1Snap) = some o2 ∧
        o2.current_status = c1Order.current_status ∧
        o2.current_status_at = c1Order.current_status_at) ∧
    (c1Snap.status ∈ specTerminalStatuses →
      ∃ o2, ((_upsert_snapshot [c1Order] c1Snap 0).1).find? (keyPred c1Snap) = some o2 ∧
        o2.current_status = c1Snap.status) :=
  wb_rollback_protection [c1Order] c1Order c1Snap 0 2 (by decide) rfl (by decide)

/-- C6 (confirmed): A sync run started while the lock is held returns
immediately with an all-zero report and the distinct "already running" message,
and leaves the store untouched; the message differs from the normal completion
message. -/
theorem sync_locked_refusal (wbResult ozonResult : Except Unit (List ExternalOrderSnapshot))
    (store : List Order) (now : Int) :
    sync_orders_from_marketplaces true wbResult ozonResult store now
      = ({ wb_received := 0, ozon_received := 0, processed_orders := 0,
           created_orders := 0, updated_orders := 0, created_events := 0,
           message := "Синхронизация уже выполняется" }, store) ∧
    (sync_orders_from_marketplaces false wbResult ozonResult store now).1.message
      = "Синхронизация завершена" ∧
    "Синхронизация уже выполняется" ≠ "Синхронизация завершена" :=
  ⟨rfl, rfl, by decide⟩

/-- C7 (confirmed): Adapter failure isolation: a run in which one
marketplace's adapter raises behaves exactly like a run in which that
marketplace returned zero snapshots — the failing side's received count is 0
while the other side's snapshots are still collapsed, reconciled against the
store, and reflected in the report. -/
theorem adapter_failure_isolation (wb oz : List ExternalOrderSnapshot)
    (store : List Order) (now : Int) :
    (sync_orders_from_marketplaces false (.error ()) (.ok oz) store now
       = sync_orders_from_marketplaces false (.ok []) (.ok oz) store now ∧
     (sync_orders_from_marketplaces false (.error ()) (.ok oz) store now).1.wb_received = 0 ∧
     (sync_orders_from_marketplaces false (.error ()) (.ok oz) store now).1.ozon_received
       = oz.length ∧
     (sync_orders_from_marketplaces false (.error ()) (.ok oz) store now).1.processed_orders
       = (_collapse_snapshots oz).length ∧
     (sync_orders_from_marketplaces false (.error ()) (.ok oz) store now).2
       = (syncLoop store (_collapse_snapshots oz) now).1) ∧
    (sync_orders_from_marketplaces false (.ok wb) (.error ()) store now
       = sync_orders_from_marketplaces false (.ok wb) (.ok []) store now ∧
     (sync_orders_from_marketplaces false (.ok wb) (.error ()) store now).1.ozon_received = 0 ∧
     (sync_orders_from_marketplaces false (.ok wb) (.error ()) store now).1.wb_received
       = wb.length ∧
     (sync_orders_from_marketplaces false (.ok wb) (.error ()) store now).1.processed_orders
       = (_collapse_snapshots wb).length ∧
     (sync_orders_from_marketplaces false (.ok wb) (.error ()) store now).2
       = (syncLoop store (_collapse_snapshots wb) now).1) := by
  have hnil : wb ++ ([] : List ExternalOrderSnapshot) = wb := List.append_nil wb
  constructor
  · exact ⟨rfl, rfl, rfl, rfl, rfl⟩
  · refine ⟨?_, ?_, ?_, ?_, ?_⟩ <;>
      simp only [sync_orders_from_marketplaces, hnil] <;> rfl

theorem upsert_created_iff_not_matched (store : List Order) (s : ExternalOrderSnapshot)
    (now : Int) :
    (_upsert_snapshot store s now).2.1 = !(orderMatched store s) := by
  unfold orderMatched
  cases hk : store.find? (keyPred s) with
  | some o => rw [upsert_found_key store s now o hk]; simp [hk]
  | none =>
    cases hg : (pyTruthyStr s.wb_rid && _looks_like_srid s.assembly_task_number) with
    | true =>
      cases hr : store.find? (ridPred s) with
      | some o => rw [upsert_found_rid store s now o hk hg hr]; simp [hk, hg, hr]
      | none => rw [upsert_created_none store s now hk hg hr]; simp [hk, hg, hr]
    | false => rw [upsert_created_noguard store s now hk hg]; simp [hk, hg]

theorem syncLoop_counts (snaps : List ExternalOrderSnapshot) :
    ∀ (store : List Order) (now : Int),
      (syncLoop store snaps now).2.1 + (syncLoop store snaps now).2.2.1 = snaps.length ∧
      (syncLoop store snaps now).2.2.1 = matchedCountLoop store snaps now := by
  induction snaps with
  | nil => intro store now; exact ⟨rfl, rfl⟩
  | cons s rest ih =>
    intro store now
    obtain ⟨ih1, ih2⟩ := ih (_upsert_snapshot store s now).1 now
    have hflag := upsert_created_iff_not_matched store s now
    unfold syncLoop matchedCountLoop
    dsimp only
    constructor
    · cases hc : (_upsert_snapshot store s now).2.1 <;> simp [hc] <;> omega
    · cases hm : orderMatched store s <;> simp [hflag, hm] <;> omega

/-- C9 (confirmed): In every completed run the report counts every collapsed
snapshot that matched an existing order as an updated order, whether or not the
upsert changed anything: `created_orders + updated_orders = processed_orders`,
and `updated_orders` equals the number of collapsed snapshots for which a
matching order existed at the moment they were processed. -/
theorem updated_orders_counts_matched
    (wbResult ozonResult : Except Unit (List ExternalOrderSnapshot))
    (store : List Order) (now : Int) :
    (sync_orders_from_marketplaces false wbResult ozonResult store now).1.created_orders
      + (sync_orders_from_marketplaces false wbResult ozonResult store now).1.updated_orders
      = (sync_orders_from_marketplaces false wbResult ozonResult store now).1.processed_orders ∧
    (sync_orders_from_marketplaces false wbResult ozonResult store now).1.updated_orders
      = matchedCountLoop store
          (_collapse_snapshots
            ((match wbResult with | .ok l => l | .error _ => []) ++
             (match ozonResult with | .ok l => l | .error _ => []))) now := by
  obtain ⟨h1, h2⟩ := syncLoop_counts
    (_collapse_snapshots
      ((match wbResult with | .ok l => l | .error _ => []) ++
       (match ozonResult with | .ok l => l | .error _ => []))) store now
  exact ⟨h1, h2⟩

/-- C10 (confirmed): The WB active-feed status mapping returns exactly one
of NEW / ASSEMBLY / TRANSFERRED_TO_DELIVERY — NEW when the supply id is absent
or blank, TRANSFERRED_TO_DELIVERY when present and the supply is done, ASSEMBLY
otherwise — and that status is never spec-terminal and never has funnel rank
beyond 2, so a WB active-feed snapshot never carries a terminal or later-funnel
status. -/
theorem map_wb_status_range (v : WbSupplyIdValue) (done : Bool) :
    (_map_wb_status v done = .new ∨ _map_wb_status v done = .assembly ∨
      _map_wb_status v done = .transferred_to_delivery) ∧
    _map_wb_status v done =
      (if _has_wb_supply_id v then
        (if done then OrderStatus.transferred_to_delivery else OrderStatus.assembly)
       else OrderStatus.new) ∧
    _map_wb_status v done ∉ specTerminalStatuses ∧
    ∃ j, WB_FORWARD_FUNNEL_INDEX (_map_wb_status v done) = some j ∧ j ≤ 2 := by
  by_cases hv : _has_wb_supply_id v = true
  · cases done with
    | false =>
      have hm : _map_wb_status v false = .assembly := by
        unfold _map_wb_status
        rw [if_neg (by simp [hv])]
        rfl
      rw [hm, if_pos hv]
      exact ⟨Or.inr (Or.inl rfl), rfl, by decide, 1, by decide, by decide⟩
    | true =>
      have hm : _map_wb_status v true = .transferred_to_delivery := by
        unfold _map_wb_status
        rw [if_neg (by simp [hv])]
        rfl
      rw [hm, if_pos hv]
      exact ⟨Or.inr (Or.inr rfl), rfl, by decide, 2, by decide, by decide⟩
  · have hm : _map_wb_status v done = .new := by
      unfold _map_wb_status
      rw [if_pos (by simp [hv])]
    rw [hm, if_neg hv]
    exact ⟨Or.inl rfl, rfl, by decide, 0, by decide, by decide⟩

theorem rid_to_task_mem (active : List ExternalOrderSnapshot) (r task : String)
    (h : _rid_to_task active r = some task) :
    ∃ a ∈ active, a.wb_rid = some r ∧ a.assembly_task_number = task := by
  unfold _rid_to_task at h
  cases hg : (active.filter (fun a => pyTruthyStr a.wb_rid && a.wb_rid == some r)).getLast? with
  | none => rw [hg] at h; exact absurd h (by simp)
  | some a =>
    rw [hg] at h
    have htask : a.assembly_task_number = task := Option.some_inj.mp h
    have hmem : a ∈ active.filter (fun a => pyTruthyStr a.wb_rid && a.wb_rid == some r) := by
      obtain ⟨hne, he⟩ := List.mem_getLast?_eq_getLast (x := a) hg
      rw [he]; exact List.getLast_mem hne
    obtain ⟨hact, hp⟩ := List.mem_filter.mp hmem
    simp only [Bool.and_eq_true, beq_iff_eq] at hp
    exact ⟨a, hact, hp.2, htask⟩

/-- C8 (confirmed): The WB sub-source merge returns the concatenation of the
active list (first, unchanged) with the statistics list mapped through the
re-keying step: a statistics snapshot whose correlation token `wb_rid` matches
some active snapshot's token appears with its `assembly_task_number` replaced
by that active snapshot's number and every other field unchanged; a statistics
snapshot with no matching token appears entirely unchanged. -/
theorem merge_wb_snapshots_spec (active statistics : List ExternalOrderSnapshot) :
    _merge_wb_snapshots active statistics
        = active ++ statistics.map (_merge_wb_rekey active) ∧
    (_merge_wb_snapshots active statistics).length
        = active.length + statistics.length ∧
    (_merge_wb_snapshots active statistics).take active.length = active ∧
    ∀ stat ∈ statistics,
      (∀ r task, stat.wb_rid = some r → r ≠ "" → _rid_to_task active r = some task →
        _merge_wb_rekey active stat = { stat with assembly_task_number := task } ∧
        ∃ a ∈ active, a.wb_rid = some r ∧ a.assembly_task_number = task) ∧
      ((stat.wb_rid = none ∨ stat.wb_rid = some "" ∨
          (∀ r, stat.wb_rid = some r → _rid_to_task active r = none)) →
        _merge_wb_rekey active stat = stat) := by
  refine ⟨rfl, ?_, ?_, ?_⟩
  · unfold _merge_wb_snapshots
    rw [List.length_append, List.length_map]
  · unfold _merge_wb_snapshots
    exact List.take_left active (statistics.map (_merge_wb_rekey active))
  · intro stat _
    constructor
    · intro r task hr hrne htask
      have htr : pyTruthyStr stat.wb_rid = true := by rw [hr]; simpa [pyTruthyStr] using hrne
      constructor
      · unfold _merge_wb_rekey
        rw [if_pos htr, hr]
        simp only [htask]
      · exact rid_to_task_mem active r task htask
    · intro hcase
      unfold _merge_wb_rekey
      rcases hcase with hn | he | hall
      · rw [if_neg (by rw [hn]; simp [pyTruthyStr])]
      · rw [if_neg (by rw [he]; simp [pyTruthyStr])]
      · by_cases htr : pyTruthyStr stat.wb_rid = true
        · rw [if_pos htr]
          cases hr : stat.wb_rid with
          | none => rfl
          | some r =>
            dsimp only
            rw [hall r hr]
        · rw [if_neg htr]

theorem pickFrom_cons (c x : ExternalOrderSnapshot) (l : List ExternalOrderSnapshot) :
    pickFrom c (x :: l) = pickFrom (if x.status_at ≥ c.status_at then x else c) l := rfl

theorem pickFrom_mem (c : ExternalOrderSnapshot) (l : List ExternalOrderSnapshot) :
    pickFrom c l = c ∨ pickFrom c l ∈ l := by
  induction l generalizing c with
  | nil => exact Or.inl rfl
  | cons x t ih =>
    rw [pickFrom_cons]
    rcases ih (if x.status_at ≥ c.status_at then x else c) with h | h
    · rw [h]
      by_cases hx : x.status_at ≥ c.status_at
      · rw [if_pos hx]; exact Or.inr (List.mem_cons_self x t)
      · rw [if_neg hx]; exact Or.inl rfl
    · exact Or.inr (List.mem_cons_of_mem x h)

theorem pickFrom_max (c : ExternalOrderSnapshot) (l : List ExternalOrderSnapshot) :
    c.status_at ≤ (pickFrom c l).status_at ∧
    ∀ x ∈ l, x.status_at ≤ (pickFrom c l).status_at := by
  induction l generalizing c with
  | nil => exact ⟨le_refl _, by simp⟩
  | cons y t ih =>
    rw [pickFrom_cons]
    by_cases hy : y.status_at ≥ c.status_at
    · rw [if_pos hy]
      obtain ⟨h1, h2⟩ := ih y
      refine ⟨le_trans hy h1, ?_⟩
      intro x hx
      rcases List.mem_cons.mp hx with he | hx2
      · rw [he]; exact h1
      · exact h2 x hx2
    · rw [if_neg hy]
      obtain ⟨h1, h2⟩ := ih c
      refine ⟨h1, ?_⟩
      intro x hx
      rcases List.mem_cons.mp hx with he | hx2
      · rw [he]; exact le_trans (le_of_lt (lt_of_not_ge hy)) h1
      · exact h2 x hx2

theorem findKey_dictInsert (acc : List ExternalOrderSnapshot)
    (item : ExternalOrderSnapshot) (k : Marketplace × String) :
    findKey (dictInsert acc item) k =
      (if snapKey item = k then
        (match findKey acc k with
         | some c => some (if item.status_at ≥ c.status_at then item else c)
         | none => some item)
       else findKey acc k) := by
  induction acc with
  | nil =>
    simp only [dictInsert, findKey]
    by_cases hik : snapKey item = k
    · rw [if_pos hik, List.find?_cons_of_pos _ (by simp [hik])]
      rfl
    · rw [if_neg hik, List.find?_cons_of_neg _ (by simp [hik])]
  | cons c rest ih =>
    simp only [dictInsert]
    by_cases hck : snapKey c = snapKey item
    · rw [if_pos hck]
      by_cases hik : snapKey item = k
      · rw [if_pos hik]
        have hc : snapKey c = k := hck.trans hik
        have hw : snapKey (if item.status_at ≥ c.status_at then item else c) = k := by
          by_cases hts : item.status_at ≥ c.status_at
          · rw [if_pos hts]; exact hik
          · rw [if_neg hts]; exact hc
        have hrhs : findKey (c :: rest) k = some c := by
          simp only [findKey]
          rw [List.find?_cons_of_pos _ (by simp [hc])]
        rw [hrhs]
        simp only [findKey]
        rw [List.find?_cons_of_pos _ (by simp [hw])]
      · rw [if_neg hik]
        have hc : ¬ snapKey c = k := fun h => hik (hck.symm.trans h)
        have hw : ¬ snapKey (if item.status_at ≥ c.status_at then item else c) = k := by
          by_cases hts : item.status_at ≥ c.status_at
          · rw [if_pos hts]; exact hik
          · rw [if_neg hts]; exact hc
        simp only [findKey]
        rw [List.find?_cons_of_neg _ (by simp [hw]), List.find?_cons_of_neg _ (by simp [hc])]
    · rw [if_neg hck]
      by_cases hc : snapKey c = k
      · have hik : ¬ snapKey item = k := fun h => hck (hc.trans h.symm)
        rw [if_neg hik]
        simp only [findKey]
        rw [List.find?_cons_of_pos _ (by simp [hc]), List.find?_cons_of_pos _ (by simp [hc])]
      · have hrw : findKey (c :: rest) k = findKey rest k := by
          simp only [findKey]
          rw [List.find?_cons_of_neg _ (by simp [hc])]
        rw [hrw]
        have hlhs : findKey (c :: dictInsert rest item) k = findKey (dictInsert rest item) k := by
          simp only [findKey]
          rw [List.find?_cons_of_neg _ (by simp [hc])]
        rw [hlhs]
        exact ih

theorem groupOf_cons (i : ExternalOrderSnapshot) (rest : List ExternalOrderSnapshot)
    (k : Marketplace × String) :
    groupOf (i :: rest) k =
      (if snapKey i = k then i :: groupOf rest k else groupOf rest k) := by
  simp only [groupOf, List.filter_cons]
  by_cases hik : snapKey i = k
  · rw [if_pos hik, if_pos (by simp [hik])]
  · rw [if_neg hik, if_neg (by simp [hik])]

theorem findKey_collapse_aux (items : List ExternalOrderSnapshot) :
    ∀ (acc : List ExternalOrderSnapshot) (k : Marketplace × String),
      findKey (items.foldl dictInsert acc) k =
        (match findKey acc k with
         | some c => some (pickFrom c (groupOf items k))
         | none => lastLatest (groupOf items k)) := by
  induction items with
  | nil =>
    intro acc k
    cases h : findKey acc k <;> simp [groupOf, lastLatest, pickFrom, h]
  | cons i rest ih =>
    intro acc k
    rw [List.foldl_cons, ih (dictInsert acc i) k, findKey_dictInsert, groupOf_cons]
    by_cases hik : snapKey i = k
    · rw [if_pos hik, if_pos hik]
      cases hacc : findKey acc k with
      | some c =>
        dsimp only
        rw [pickFrom_cons]
      | none =>
        dsimp only
        rfl
    · rw [if_neg hik, if_neg hik]

/-- The collapse result per key: the dict entry for `k` is the last-seen
snapshot among those with maximal status timestamp in the group of `k`. -/
theorem findKey_collapse (items : List ExternalOrderSnapshot) (k : Marketplace × String) :
    findKey (_collapse_snapshots items) k = lastLatest (groupOf items k) := by
  have h := findKey_collapse_aux items [] k
  simpa [findKey, _collapse_snapshots] using h

/-- The dict underlying `_collapse_snapshots` holds at most one entry per key. -/
def distinctKeys (l : List ExternalOrderSnapshot) : Prop :=
  l.Pairwise (fun a b => snapKey a ≠ snapKey b)

theorem mem_dictInsert (acc : List ExternalOrderSnapshot) (item x : ExternalOrderSnapshot)
    (h : x ∈ dictInsert acc item) : x = item ∨ x ∈ acc := by
  induction acc with
  | nil => simpa [dictInsert] using h
  | cons c rest ih =>
    simp only [dictInsert] at h
    by_cases hck : snapKey c = snapKey item
    · rw [if_pos hck] at h
      rcases List.mem_cons.mp h with h1 | h1
      · by_cases hts : item.status_at ≥ c.status_at
        · rw [if_pos hts] at h1; exact Or.inl h1
        · rw [if_neg hts] at h1; exact Or.inr (h1 ▸ List.mem_cons_self c rest)
      · exact Or.inr (List.mem_cons_of_mem c h1)
    · rw [if_neg hck] at h
      rcases List.mem_cons.mp h with h1 | h1
      · exact Or.inr (h1 ▸ List.mem_cons_self c rest)
      · rcases ih h1 with h2 | h2
        · exact Or.inl h2
        · exact Or.inr (List.mem_cons_of_mem c h2)

theorem distinctKeys_dictInsert (acc : List ExternalOrderSnapshot)
    (item : ExternalOrderSnapshot) (h : distinctKeys acc) :
    distinctKeys (dictInsert acc item) := by
  induction acc with
  | nil => simp [dictInsert, distinctKeys]
  | cons c rest ih =>
    obtain ⟨hhead, htail⟩ := List.pairwise_cons.mp h
    simp only [dictInsert]
    by_cases hck : snapKey c = snapKey item
    · rw [if_pos hck]
      apply List.pairwise_cons.mpr
      have hkw : snapKey (if item.status_at ≥ c.status_at then item else c) = snapKey c := by
        by_cases hts : item.status_at ≥ c.status_at
        · rw [if_pos hts]; exact hck.symm
        · rw [if_neg hts]
      exact ⟨fun b hb => hkw ▸ hhead b hb, htail⟩
    · rw [if_neg hck]
      apply List.pairwise_cons.mpr
      refine ⟨?_, ih htail⟩
      intro b hb
      rcases mem_dictInsert rest item b hb with he | h2
      · rw [he]; exact hck
      · exact hhead b h2

theorem distinctKeys_foldl (items : List ExternalOrderSnapshot) :
    ∀ acc, distinctKeys acc → distinctKeys (items.foldl dictInsert acc) := by
  induction items with
  | nil => intro acc h; exact h
  | cons i rest ih =>
    intro acc h
    rw [List.foldl_cons]
    exact ih _ (distinctKeys_dictInsert acc i h)

theorem distinctKeys_collapse (items : List ExternalOrderSnapshot) :
    distinctKeys (_collapse_snapshots items) :=
  distinctKeys_foldl items [] (by simp [distinctKeys])

theorem count_key_of_distinct (l : List ExternalOrderSnapshot)
    (hd : distinctKeys l) (k : Marketplace × String) (x : ExternalOrderSnapshot)
    (hx : findKey l k = some x) :
    (l.filter (fun s => snapKey s == k)).length = 1 := by
  induction l with
  | nil => simp [findKey] at hx
  | cons c rest ih =>
    obtain ⟨hhead, htail⟩ := List.pairwise_cons.mp hd
    rw [List.filter_cons]
    by_cases hck : snapKey c = k
    · have hrest : rest.filter (fun s => snapKey s == k) = [] := by
        rw [List.filter_eq_nil_iff]
        intro b hb
        simp only [beq_iff_eq]
        intro he
        exact hhead b hb (hck.trans he.symm)
      rw [if_pos (by simp [hck])]
      simp [hrest]
    · rw [if_neg (by simp [hck])]
      have hx2 : findKey rest k = some x := by
        simp only [findKey] at hx
        rwa [List.find?_cons_of_neg _ (by simp [hck])] at hx
      exact ih htail hx2

/-- Concrete snapshots for C2: identical key and identical timestamp. -/
def c2s1 : ExternalOrderSnapshot :=
  { marketplace := .ozon, assembly_task_number := "A-1", status := .new,
    status_at := 5000000, product_name := "first", sku := none, quantity := 1,
    due_ship_at := none, source_status := "", wb_rid := none }

/-- Second C2 snapshot: same key and timestamp as `c2s1`, different payload. -/
def c2s2 : ExternalOrderSnapshot := { c2s1 with product_name := "second" }

/-- C2 counterexample: With two snapshots of the same key sharing the
maximal status timestamp, `_collapse_snapshots` keeps the LAST one seen in
input order (`item.status_at >= current.status_at` replaces on ties), not the
first as the claim states. -/
theorem collapse_ties_counterexample :
    _collapse_snapshots [c2s1, c2s2] = [c2s2] ∧ c2s2 ≠ c2s1 := by
  constructor
  · decide
  · decide

/-- C2 as amended: (ties keep the last seen). For every key with a nonempty
group, `_collapse_snapshots` keeps exactly one snapshot for that key, equal to
the last-seen snapshot among those with the maximal status timestamp of the
group; in particular it belongs to the group and its timestamp dominates the
whole group. -/
theorem collapse_per_key_latest (items : List ExternalOrderSnapshot)
    (k : Marketplace × String) (hne : groupOf items k ≠ []) :
    ((_collapse_snapshots items).filter (fun s => snapKey s == k)).length = 1 ∧
    findKey (_collapse_snapshots items) k = lastLatest (groupOf items k) ∧
    ∀ x, findKey (_collapse_snapshots items) k = some x →
      x ∈ groupOf items k ∧ ∀ t ∈ groupOf items k, t.status_at ≤ x.status_at := by
  have hfk := findKey_collapse items k
  obtain ⟨x0, hx0⟩ : ∃ x, findKey (_collapse_snapshots items) k = some x := by
    cases hg : groupOf items k with
    | nil => exact absurd hg hne
    | cons h t => exact ⟨pickFrom h t, by rw [hfk, hg]; rfl⟩
  refine ⟨count_key_of_distinct _ (distinctKeys_collapse items) k x0 hx0, hfk, ?_⟩
  intro x hx
  rw [hfk] at hx
  cases hg : groupOf items k with
  | nil => exact absurd hg hne
  | cons h t =>
    rw [hg] at hx
    have hxp : x = pickFrom h t := by
      simp only [lastLatest] at hx
      exact (Option.some_inj.mp hx).symm
    subst hxp
    obtain ⟨h1, h2⟩ := pickFrom_max h t
    constructor
    · rcases pickFrom_mem h t with he | he
      · rw [he]; exact List.mem_cons_self h t
      · exact List.mem_cons_of_mem h he
    · intro tt htt
      rcases List.mem_cons.mp htt with he | htt2
      · rw [he]; exact h1
      · exact h2 tt htt2

/-- Witness for the amended C2 at a concrete two-snapshot batch. -/
theorem collapse_per_key_latest_witness :
    (((_collapse_snapshots [c2s1, c2s2]).filter
        (fun s => snapKey s == (Marketplace.ozon, "A-1"))).length = 1 ∧
     findKey (_collapse_snapshots [c2s1, c2s2]) (Marketplace.ozon, "A-1")
       = lastLatest (groupOf [c2s1, c2s2] (Marketplace.ozon, "A-1")) ∧
     ∀ x, findKey (_collapse_snapshots [c2s1, c2s2]) (Marketplace.ozon, "A-1") = some x →
       x ∈ groupOf [c2s1, c2s2] (Marketplace.ozon, "A-1") ∧
       ∀ t ∈ groupOf [c2s1, c2s2] (Marketplace.ozon, "A-1"),
         t.status_at ≤ x.status_at) :=
  collapse_per_key_latest [c2s1, c2s2] (Marketplace.ozon, "A-1") (by decide)

@[simp] theorem backfillRid_product_name (o : Order) (s : ExternalOrderSnapshot) :
    (backfillRid o s).product_name = o.product_name := by
  unfold backfillRid; split <;> rfl

@[simp] theorem backfillRid_sku (o : Order) (s : ExternalOrderSnapshot) :
    (backfillRid o s).sku = o.sku := by
  unfold backfillRid; split <;> rfl

@[simp] theorem backfillRid_quantity (o : Order) (s : ExternalOrderSnapshot) :
    (backfillRid o s).quantity = o.quantity := by
  unfold backfillRid; split <;> rfl

@[simp] theorem backfillRid_due_ship_at (o : Order) (s : ExternalOrderSnapshot) :
    (backfillRid o s).due_ship_at = o.due_ship_at := by
  unfold backfillRid; split <;> rfl

theorem is_duplicate_congr (a b : Order) (st : OrderStatus) (t : Int)
    (h : a.events = b.events) :
    _is_duplicate_event a st t = _is_duplicate_event b st t := by
  unfold _is_duplicate_event; rw [h]

/-- Concrete Ozon order for C4: current status `in_transit_to_buyer` at time 0. -/
def c4Order : Order :=
  { marketplace := .ozon, external_order_id := "123-45", wb_rid := none,
    product_name := "Старое имя", sku := some "OLD", quantity := 1,
    due_ship_at := none, current_status := .in_transit_to_buyer,
    current_status_at := 0, comment := "", updated_at := 0,
    events := [{ status := .in_transit_to_buyer, event_at := 0, note := "" }] }

/-- Concrete Ozon snapshot for C4: the same canonical status with a timestamp 5
seconds newer and different mutable attributes. -/
def c4Snap : ExternalOrderSnapshot :=
  { marketplace := .ozon, assembly_task_number := "123-45",
    status := .in_transit_to_buyer, status_at := 5000000,
    product_name := "Новое имя", sku := some "NEW", quantity := 2,
    due_ship_at := some 9000000, source_status := "delivering", wb_rid := none }

/-- C4 counterexample: For an Ozon order, an incoming snapshot whose
timestamp is more than 1 second newer than the stored one but whose canonical
status equals the current status produces NO change at all: no attribute
refresh, no history event, and the current status timestamp stays at its old
value — `_upsert_snapshot` has no timestamp-tolerance acceptance clause. -/
theorem ozon_same_status_counterexample :
    _upsert_snapshot [c4Order] c4Snap 77 = ([c4Order], false, false) ∧
    c4Snap.status_at - c4Order.current_status_at > 1000000 := by
  constructor
  · decide
  · decide

/-- C4 as amended: For a marketplace without rollback protection (Ozon) an
update is applied exactly when the incoming canonical status differs from the
current status; the incoming timestamp plays no role in acceptance.  When the
statuses differ, the mutable attributes are refreshed, the current status and
timestamp are set to the snapshot's values, and a history event is appended
unless suppressed as a duplicate; when the statuses are equal, nothing is
persisted. -/
theorem ozon_update_applies_iff_status_differs (o : Order) (s : ExternalOrderSnapshot)
    (now : Int) (hmp : s.marketplace = Marketplace.ozon) :
    (s.status ≠ o.current_status →
      ((updateExistingOrder o s now).1.current_status = s.status ∧
       (updateExistingOrder o s now).1.current_status_at = s.status_at ∧
       (updateExistingOrder o s now).1.product_name
         = (if s.product_name = "" then o.product_name else s.product_name) ∧
       (updateExistingOrder o s now).1.sku
         = (if pyTruthyStr s.sku then s.sku else o.sku) ∧
       (updateExistingOrder o s now).1.quantity = max s.quantity 1 ∧
       (updateExistingOrder o s now).1.due_ship_at
         = (match s.due_ship_at with | some d => some d | none => o.due_ship_at) ∧
       (updateExistingOrder o s now).2
         = !(_is_duplicate_event o s.status s.status_at) ∧
       ((updateExistingOrder o s now).2 = true →
         (updateExistingOrder o s now).1.events
           = o.events ++ [{ status := s.status, event_at := s.status_at,
                            note := _event_note s.source_status }]) ∧
       ((updateExistingOrder o s now).2 = false →
         (updateExistingOrder o s now).1.events = o.events))) ∧
    (s.status = o.current_status →
      updateExistingOrder o s now = (backfillRid o s, false)) := by
  have hnext : nextStatusFor (backfillRid o s) s = s.status := by
    unfold nextStatusFor
    rw [if_neg (by simp [hmp])]
  have hdup : _is_duplicate_event (refreshAttrs (backfillRid o s) s) s.status s.status_at
      = _is_duplicate_event o s.status s.status_at :=
    is_duplicate_congr _ o s.status s.status_at (by rw [refreshAttrs_events, backfillRid_events])
  constructor
  · intro hdiff
    have hg : nextStatusFor (backfillRid o s) s = s.status ∧
        ¬ nextStatusFor (backfillRid o s) s = (backfillRid o s).current_status := by
      refine ⟨hnext, ?_⟩
      rw [hnext, backfillRid_current_status]
      exact hdiff
    unfold updateExistingOrder
    rw [if_pos hg, hnext, hdup]
    by_cases hd : _is_duplicate_event o s.status s.status_at = true
    · rw [if_pos hd]
      refine ⟨rfl, rfl, ?_, ?_, rfl, ?_, ?_, ?_, ?_⟩
      · simp [refreshAttrs]
      · simp [refreshAttrs]
      · simp [refreshAttrs]
      · simp [hd]
      · intro hfalse; simp at hfalse
      · intro _; simp [refreshAttrs]
    · rw [if_neg hd]
      refine ⟨rfl, rfl, ?_, ?_, rfl, ?_, ?_, ?_, ?_⟩
      · simp [refreshAttrs]
      · simp [refreshAttrs]
      · simp [refreshAttrs]
      · simp [Bool.not_eq_true] at hd
        simp [hd]
      · intro _; simp [refreshAttrs]
      · intro hfalse; simp at hfalse
  · intro heq
    apply updateExistingOrder_noop_of_guard_false
    intro hg
    exact hg.2 (by rw [hnext, heq, backfillRid_current_status])

/-- Witness for the amended C4 at a concrete Ozon order and snapshot. -/
theorem ozon_update_applies_iff_status_differs_witness :
    ((c4Snap.status ≠ c4Order.current_status →
      ((updateExistingOrder c4Order c4Snap 3).1.current_status = c4Snap.status ∧
       (updateExistingOrder c4Order c4Snap 3).1.current_status_at = c4Snap.status_at ∧
       (updateExistingOrder c4Order c4Snap 3).1.product_name
         = (if c4Snap.product_name = "" then c4Order.product_name else c4Snap.product_name) ∧
       (updateExistingOrder c4Order c4Snap 3).1.sku
         = (if pyTruthyStr c4Snap.sku then c4Snap.sku else c4Order.sku) ∧
       (updateExistingOrder c4Order c4Snap 3).1.quantity = max c4Snap.quantity 1 ∧
       (updateExistingOrder c4Order c4Snap 3).1.due_ship_at
         = (match c4Snap.due_ship_at with | some d => some d | none => c4Order.due_ship_at) ∧
       (updateExistingOrder c4Order c4Snap 3).2
         = !(_is_duplicate_event c4Order c4Snap.status c4Snap.status_at) ∧
       ((updateExistingOrder c4Order c4Snap 3).2 = true →
         (updateExistingOrder c4Order c4Snap 3).1.events
           = c4Order.events ++ [{ status := c4Snap.status, event_at := c4Snap.status_at,
                                  note := _event_note c4Snap.source_status }]) ∧
       ((updateExistingOrder c4Order c4Snap 3).2 = false →
         (updateExistingOrder c4Order c4Snap 3).1.events = c4Order.events))) ∧
    (c4Snap.status = c4Order.current_status →
      updateExistingOrder c4Order c4Snap 3 = (backfillRid c4Order c4Snap, false))) :=
  ozon_update_applies_iff_status_differs c4Order c4Snap 3 rfl

/-- Concrete Ozon order for C5: the invariant holds; the history has a `new`
event at t = 10s and an `assembly` event at t = 10.5s. -/
def c5Order : Order :=
  { marketplace := .ozon, external_order_id := "555", wb_rid := none,
    product_name := "Позиция", sku := none, quantity := 1,
    due_ship_at := none, current_status := .assembly,
    current_status_at := 10500000, comment := "", updated_at := 0,
    events := [{ status := .new, event_at := 10000000, note := "" },
               { status := .assembly, event_at := 10500000, note := "" }] }

/-- Concrete C5 snapshot: status `new` again at t = 10.9s, within 1 second of
the old `new` event, so the new event is suppressed while the current status
still flips to `new`. -/
def c5Snap : ExternalOrderSnapshot :=
  { marketplace := .ozon, assembly_task_number := "555", status := .new,
    status_at := 10900000, product_name := "Позиция", sku := none, quantity := 1,
    due_ship_at := none, source_status := "", wb_rid := none }

/-- C5 counterexample: An accepted status change whose event is suppressed
as a duplicate breaks the invariant: starting from an order satisfying the
invariant, the update leaves the maximal-timestamp history event (`assembly`
at 10.5s) disagreeing with the new current status (`new`), so upsert does not
preserve the invariant even on the duplicate-suppression path the claim
explicitly includes. -/
theorem invariant_duplicate_suppression_counterexample :
    orderInvariant c5Order ∧
    ¬ orderInvariant (updateExistingOrder c5Order c5Snap 0).1 ∧
    (updateExistingOrder c5Order c5Snap 0).2 = false := by
  refine ⟨by decide, by decide, by decide⟩

theorem updateExistingOrder_events_dup (o : Order) (s : ExternalOrderSnapshot) (now : Int)
    (hg : nextStatusFor (backfillRid o s) s = s.status ∧
          ¬ nextStatusFor (backfillRid o s) s = (backfillRid o s).current_status)
    (hd : _is_duplicate_event (refreshAttrs (backfillRid o s) s)
          (nextStatusFor (backfillRid o s) s) s.status_at = true) :
    (updateExistingOrder o s now).1.events = o.events ∧
    (updateExistingOrder o s now).2 = false := by
  unfold updateExistingOrder
  rw [if_pos hg, if_pos hd]
  refine ⟨?_, rfl⟩
  show (refreshAttrs (backfillRid o s) s).events = o.events
  rw [refreshAttrs_events, backfillRid_events]

theorem updateExistingOrder_events_new (o : Order) (s : ExternalOrderSnapshot) (now : Int)
    (hg : nextStatusFor (backfillRid o s) s = s.status ∧
          ¬ nextStatusFor (backfillRid o s) s = (backfillRid o s).current_status)
    (hd : _is_duplicate_event (refreshAttrs (backfillRid o s) s)
          (nextStatusFor (backfillRid o s) s) s.status_at = false) :
    (updateExistingOrder o s now).1.events
      = o.events ++ [{ status := nextStatusFor (backfillRid o s) s,
                       event_at := s.status_at,
                       note := _event_note s.source_status }] ∧
    (updateExistingOrder o s now).2 = true := by
  unfold updateExistingOrder
  rw [if_pos hg, if_neg (by rw [hd]; exact Bool.false_ne_true)]
  refine ⟨?_, rfl⟩
  show (refreshAttrs (backfillRid o s) s).events ++ _ = _
  rw [refreshAttrs_events, backfillRid_events]

/-- C5 as amended: Creation establishes the invariant.  An update whose
incoming timestamp is strictly newer than the stored current status timestamp
preserves the half "current_status_at dominates every event timestamp", and
preserves the full invariant whenever the history event is actually appended
(`event_created = true`); the duplicate-suppression path may leave the latest
event's status different from the current status. -/
theorem upsert_invariant_amended (o : Order) (s : ExternalOrderSnapshot) (now : Int)
    (hinv : orderInvariant o) (hts : o.current_status_at < s.status_at) :
    statusAtDominates (updateExistingOrder o s now).1 ∧
    ((updateExistingOrder o s now).2 = true →
      orderInvariant (updateExistingOrder o s now).1) ∧
    orderInvariant (createOrderFromSnapshot s now) := by
  have hcreate : orderInvariant (createOrderFromSnapshot s now) := by
    constructor
    · intro e he _
      rw [List.mem_singleton.mp he]
      rfl
    · intro e he
      rw [List.mem_singleton.mp he]
      exact le_refl s.status_at
  by_cases hg : (nextStatusFor (backfillRid o s) s = s.status ∧
      ¬ nextStatusFor (backfillRid o s) s = (backfillRid o s).current_status)
  · have happ := updateExistingOrder_applied o s now hg
    by_cases hd : _is_duplicate_event (refreshAttrs (backfillRid o s) s)
        (nextStatusFor (backfillRid o s) s) s.status_at = true
    · obtain ⟨hev, hec⟩ := updateExistingOrder_events_dup o s now hg hd
      refine ⟨?_, ?_, hcreate⟩
      · intro e he
        rw [hev] at he
        rw [happ.2]
        exact le_of_lt (lt_of_le_of_lt (hinv.2 e he) hts)
      · intro hfalse
        rw [hec] at hfalse
        exact Bool.noConfusion hfalse
    · obtain ⟨hev, hec⟩ := updateExistingOrder_events_new o s now hg
        (by cases hb : _is_duplicate_event (refreshAttrs (backfillRid o s) s)
              (nextStatusFor (backfillRid o s) s) s.status_at
            · rfl
            · exact absurd hb hd)
      have hdom : statusAtDominates (updateExistingOrder o s now).1 := by
        intro e he
        rw [hev] at he
        rw [happ.2]
        rcases List.mem_append.mp he with h1 | h2
        · exact le_of_lt (lt_of_le_of_lt (hinv.2 e h1) hts)
        · rw [List.mem_singleton.mp h2]
      refine ⟨hdom, ?_, hcreate⟩
      intro _
      refine ⟨?_, hdom⟩
      intro e he hmax
      rw [hev] at he hmax
      have hse : s.status_at ≤ e.event_at :=
        hmax _ (List.mem_append_right o.events (List.mem_singleton_self _))
      rcases List.mem_append.mp he with h1 | h2
      · exact absurd hse (not_le.mpr (lt_of_le_of_lt (hinv.2 e h1) hts))
      · rw [List.mem_singleton.mp h2]
        rw [happ.1]
        exact hg.1
  · have hres := updateExistingOrder_noop_of_guard_false o s now hg
    refine ⟨?_, ?_, hcreate⟩
    · intro e he
      rw [hres] at he
      have he2 : e ∈ o.events := by simpa using he
      rw [hres]
      simpa using hinv.2 e he2
    · intro hfalse
      rw [hres] at hfalse
      exact Bool.noConfusion hfalse

/-- Snapshot for the C5 witness: a different status strictly newer than the
stored current status timestamp of `c5Order`. -/
def c5WitnessSnap : ExternalOrderSnapshot :=
  { marketplace := .ozon, assembly_task_number := "555",
    status := .transferred_to_delivery, status_at := 20000000,
    product_name := "Позиция", sku := none, quantity := 1,
    due_ship_at := none, source_status := "", wb_rid := none }

/-- Witness for the amended C5 at a concrete order whose invariant holds and a
strictly newer snapshot. -/
theorem upsert_invariant_amended_witness :
    (statusAtDominates (updateExistingOrder c5Order c5WitnessSnap 0).1 ∧
     ((updateExistingOrder c5Order c5WitnessSnap 0).2 = true →
       orderInvariant (updateExistingOrder c5Order c5WitnessSnap 0).1) ∧
     orderInvariant (createOrderFromSnapshot c5WitnessSnap 0)) :=
  upsert_invariant_amended c5Order c5WitnessSnap 0 (by decide) (by decide)

end Otgruzka
